import Mathlib

/-!
Shallow embedding of the CPU core of the psx-rs PlayStation-1 emulator
(`src/cpu/mod.rs`), together with proofs checking the natural-language
specification against it.

Machine integers are modelled as `Nat` with explicit reduction modulo
`2 ^ 32` where the Rust code wraps; signed 32-bit views go through `Int`.
Host-level aborts in the Rust code (every `panic!` and the dead
`unreachable` arms) are modelled by `Option`, `none` standing for the
abort.  The interconnect (bus) is not part of the CPU sources and is
modelled from the specification (see `Interconnect` below).
-/

namespace Psx

/-- Reduce a value modulo 2^32, the u32 wrap-around used throughout. -/
def mask32 (x : Nat) : Nat := x % 4294967296

/-- Wrapping 32-bit addition (`u32::wrapping_add`). -/
def wadd (a b : Nat) : Nat := mask32 (a + b)

/-- Wrapping 32-bit subtraction (`u32::wrapping_sub`). -/
def wsub (a b : Nat) : Nat := mask32 (a + (4294967296 - mask32 b))

/-- Reinterpret a u32 value as a signed 32-bit integer (`as i32`). -/
def toI32 (v : Nat) : Int :=
  if mask32 v < 2147483648 then (mask32 v : Int) else (mask32 v : Int) - 4294967296

/-- Reinterpret a signed integer as a u32 (`as u32` on an i32 value). -/
def toU32 (x : Int) : Nat := (x % 4294967296).toNat

/-- Bitwise complement on u32 (`!x` in Rust). -/
def not32 (x : Nat) : Nat := 4294967295 ^^^ mask32 x

/-- Sign extension from 8 bits (`as i8 as u32` on a byte value). -/
def se8 (v : Nat) : Nat := if v % 256 < 128 then v % 256 else v % 256 + 0xffffff00

/-- Sign extension from 16 bits (`as i16 as u32` on a halfword value). -/
def se16 (v : Nat) : Nat := if v % 65536 < 32768 then v % 65536 else v % 65536 + 0xffff0000

/-- `struct Instruction(u32)`: a 32-bit instruction word. -/
structure Instruction where
  w : Nat
deriving DecidableEq

namespace Instruction

/-- Bits [31:26] of the instruction (primary opcode). -/
def function (i : Instruction) : Nat := i.w >>> 26

/-- Bits [5:0] of the instruction (secondary opcode). -/
def subfunction (i : Instruction) : Nat := i.w &&& 0x3f

/-- Coprocessor opcode in bits [25:21]. -/
def cop_opcode (i : Instruction) : Nat := (i.w >>> 21) &&& 0x1f

/-- Register index in bits [25:21]. -/
def s (i : Instruction) : Nat := (i.w >>> 21) &&& 0x1f

/-- Register index in bits [20:16]. -/
def t (i : Instruction) : Nat := (i.w >>> 16) &&& 0x1f

/-- Register index in bits [15:11]. -/
def d (i : Instruction) : Nat := (i.w >>> 11) &&& 0x1f

/-- Immediate value in bits [16:0], zero extended. -/
def imm (i : Instruction) : Nat := i.w &&& 0xffff

/-- Immediate value in bits [16:0] as a sign-extended 32-bit value. -/
def imm_se (i : Instruction) : Nat := se16 (i.w &&& 0xffff)

/-- Shift-immediate value stored in bits [10:6]. -/
def shift (i : Instruction) : Nat := (i.w >>> 6) &&& 0x1f

/-- Jump target stored in bits [25:0]. -/
def imm_jump (i : Instruction) : Nat := i.w &&& 0x3ffffff

end Instruction

/-- Exception types, as stored in the `CAUSE` register. -/
inductive Exception where
  | LoadAddressError
  | StoreAddressError
  | SysCall
  | Break
  | IllegalInstruction
  | CoprocessorError
  | Overflow
deriving DecidableEq

/-- The enum discriminant of each exception (the Cause exception code). -/
def Exception.code : Exception → Nat
  | .LoadAddressError   => 0x4
  | .StoreAddressError  => 0x5
  | .SysCall            => 0x8
  | .Break              => 0x9
  | .IllegalInstruction => 0xa
  | .CoprocessorError   => 0xb
  | .Overflow           => 0xc

/-- Cop0 register 12, kept as a raw 32-bit word (`struct StatusRegister(u32)`). -/
def cache_isolated (sr : Nat) : Bool := sr &&& 0x10000 != 0

/-- Exception handler address selected by the BEV bit (bit 22) of `SR`. -/
def exception_handler (sr : Nat) : Nat :=
  if sr &&& (1 <<< 22) != 0 then 0xbfc00180 else 0x80000080

/-- `StatusRegister::enter_exception`: push a pair of zeroes onto the
3-entry mode stack in `SR[5:0]`, discarding the oldest entry. -/
def enter_exception (sr : Nat) : Nat :=
  let mode := sr &&& 0x3f
  let sr := sr &&& not32 0x3f
  sr ||| ((mode <<< 2) &&& 0x3f)

/-- `StatusRegister::return_from_exception`: pop the mode stack in
`SR[5:0]`, discarding the current state. -/
def return_from_exception (sr : Nat) : Nat :=
  let mode := sr &&& 0x3f
  let sr := sr &&& not32 0x3f
  sr ||| (mode >>> 2)

/-- Instruction cache line: packed tag+valid word and four instruction
words. -/
structure ICacheLine where
  tag_valid : Nat
  line : Nat → Instruction

namespace ICacheLine

/-- Initial cache line: tag 0, all words the BREAK-like trap `0x00bad0d`. -/
def new : ICacheLine := ⟨0, fun _ => ⟨0x00bad0d⟩⟩

/-- The cache line's tag (bits [31:12] of `tag_valid`). -/
def tag (l : ICacheLine) : Nat := l.tag_valid &&& 0xfffff000

/-- The cache line's first valid word index (bits [4:2] of `tag_valid`). -/
def valid_index (l : ICacheLine) : Nat := (l.tag_valid >>> 2) &&& 0x7

/-- Set tag and valid bits from `pc`, the first valid PC in the line. -/
def set_tag_valid (l : ICacheLine) (pc : Nat) : ICacheLine :=
  { l with tag_valid := pc &&& 0xfffff00c }

/-- Invalidate the whole line by pushing the valid index out of range. -/
def invalidate (l : ICacheLine) : ICacheLine :=
  { l with tag_valid := l.tag_valid ||| 0x10 }

/-- Word number `index` of the line. -/
def instruction (l : ICacheLine) (index : Nat) : Instruction := l.line index

/-- Replace word number `index` of the line. -/
def set_instruction (l : ICacheLine) (index : Nat) (i : Instruction) : ICacheLine :=
  { l with line := fun j => if j = index then i else l.line j }

end ICacheLine

/-- Access widths of the memory interface (`memory::AccessWidth`). -/
inductive AccessWidth where
  | Byte
  | HalfWord
  | Word
deriving DecidableEq

/-- Little-endian byte read; the memory map stores one byte per address. -/
def load8 (m : Nat → Nat) (a : Nat) : Nat := m (mask32 a) % 256

/-- Little-endian halfword read. -/
def load16 (m : Nat → Nat) (a : Nat) : Nat := load8 m a + 256 * load8 m (a + 1)

/-- Little-endian word read. -/
def load32 (m : Nat → Nat) (a : Nat) : Nat :=
  load8 m a + 256 * load8 m (a + 1) + 65536 * load8 m (a + 2) + 16777216 * load8 m (a + 3)

/-- Little-endian byte write. -/
def store8 (m : Nat → Nat) (a v : Nat) : Nat → Nat :=
  fun x => if x = mask32 a then v % 256 else m x

/-- Little-endian halfword write. -/
def store16 (m : Nat → Nat) (a v : Nat) : Nat → Nat :=
  store8 (store8 m a v) (a + 1) (v / 256)

/-- Little-endian word write. -/
def store32 (m : Nat → Nat) (a v : Nat) : Nat → Nat :=
  store8 (store8 (store8 (store8 m a v) (a + 1) (v / 256)) (a + 2) (v / 65536))
    (a + 3) (v / 16777216)

/-- Width-dispatched read. -/
def loadW : AccessWidth → (Nat → Nat) → Nat → Nat
  | .Byte, m, a => load8 m a
  | .HalfWord, m, a => load16 m a
  | .Word, m, a => load32 m a

/-- Width-dispatched write. -/
def storeW : AccessWidth → (Nat → Nat) → Nat → Nat → (Nat → Nat)
  | .Byte, m, a, v => store8 m a v
  | .HalfWord, m, a, v => store16 m a v
  | .Word, m, a, v => store32 m a v

/-- Modelled from the spec: the `Interconnect` (bus) is an external
collaborator whose sources are not part of the CPU crate.  Per the
interface contract of the specification it exposes
`load_instruction(addr) → word`, typed `load<W>(addr) → value`,
`store<W>(addr, value)` and `cache_control()`; data accesses are
little-endian against a flat byte-addressed memory and the cache-control
flags are configuration. -/
structure Interconnect where
  mem : Nat → Nat
  icache_enabled : Bool
  tag_test_mode : Bool

/-- Modelled from the spec: typed bus read (`Interconnect::load`). -/
def Interconnect.load (i : Interconnect) (w : AccessWidth) (addr : Nat) : Nat :=
  loadW w i.mem addr

/-- Modelled from the spec: typed bus write (`Interconnect::store`). -/
def Interconnect.store (i : Interconnect) (w : AccessWidth) (addr v : Nat) : Interconnect :=
  { i with mem := storeW w i.mem addr v }

/-- Modelled from the spec: instruction fetch on the bus
(`Interconnect::load_instruction`). -/
def Interconnect.load_instruction (i : Interconnect) (addr : Nat) : Nat :=
  load32 i.mem addr

/-- CPU state (`struct Cpu`).  The `TimeKeeper` is represented by its
monotonic cycle counter `tkNow`; register banks and the instruction cache
are total maps indexed by the register / line number. -/
structure Cpu where
  tkNow : Nat
  pc : Nat
  next_pc : Nat
  current_pc : Nat
  regs : Nat → Nat
  out_regs : Nat → Nat
  hi : Nat
  lo : Nat
  icache : Nat → ICacheLine
  inter : Interconnect
  sr : Nat
  cause : Nat
  epc : Nat
  loadReg : Nat
  loadVal : Nat
  branch : Bool
  delay_slot : Bool

namespace Cpu

/-- Read a general-purpose register (input bank). -/
def reg (c : Cpu) (index : Nat) : Nat := c.regs index

/-- Write a general-purpose register in the output bank; R0 is forced
back to zero after every write. -/
def set_reg (c : Cpu) (index v : Nat) : Cpu :=
  { c with out_regs := fun j => if j = 0 then 0 else if j = index then v else c.out_regs j }

/-- Memory read issued by an instruction (the debugger hook is a no-op). -/
def load (c : Cpu) (w : AccessWidth) (addr : Nat) : Nat := c.inter.load w addr

/-- `Cpu::examine`: memory read with as little side-effect as possible,
used by the debugger.  Returns the (unchanged) CPU and the value read. -/
def examine (c : Cpu) (w : AccessWidth) (addr : Nat) : Cpu × Nat :=
  (c, c.inter.load w addr)

/-- Handle writes while the cache is isolated (`Cpu::cache_maintenance`);
`none` models the `panic!` arms. -/
def cache_maintenance (c : Cpu) (w : AccessWidth) (addr v : Nat) : Option Cpu :=
  if !c.inter.icache_enabled then
    none
  else if w ≠ AccessWidth.Word ∨ v ≠ 0 then
    none
  else
    let lineIdx := (addr >>> 4) &&& 0xff
    let l := c.icache lineIdx
    let l := if c.inter.tag_test_mode then l.invalidate
             else l.set_instruction ((addr >>> 2) &&& 3) ⟨v⟩
    some { c with icache := fun j => if j = lineIdx then l else c.icache j }

/-- Memory write issued by an instruction: diverted into cache
maintenance when the cache is isolated. -/
def store (c : Cpu) (w : AccessWidth) (addr v : Nat) : Option Cpu :=
  if cache_isolated c.sr then
    c.cache_maintenance w addr v
  else
    some { c with inter := c.inter.store w addr v }

/-- Branch to immediate offset (`Cpu::branch`): the offset is shifted two
places left, added (wrapping) to `pc`, and the branch flag is raised. -/
def takeBranch (c : Cpu) (offset : Nat) : Cpu :=
  { c with next_pc := wadd c.pc (mask32 (offset <<< 2)), branch := true }

/-- Trigger an exception (`Cpu::exception`). -/
def exception (c : Cpu) (e : Exception) : Cpu :=
  let sr := enter_exception c.sr
  let cause := e.code <<< 2
  let epc := c.current_pc
  let (epc, cause) :=
    if c.delay_slot then (wsub epc 4, cause ||| (1 <<< 31)) else (epc, cause)
  let pc := exception_handler sr
  { c with sr := sr, cause := cause, epc := epc, pc := pc, next_pc := wadd pc 4 }

/-- Shift Left Logical. -/
def op_sll (c : Cpu) (i : Instruction) : Cpu :=
  c.set_reg i.d (mask32 (c.reg i.t <<< i.shift))

/-- Shift Right Logical. -/
def op_srl (c : Cpu) (i : Instruction) : Cpu :=
  c.set_reg i.d (mask32 (c.reg i.t) >>> i.shift)

/-- Shift Right Arithmetic. -/
def op_sra (c : Cpu) (i : Instruction) : Cpu :=
  c.set_reg i.d (toU32 (toI32 (c.reg i.t) / (2 ^ i.shift : Int)))

/-- Shift Left Logical Variable (shift amount truncated to 5 bits). -/
def op_sllv (c : Cpu) (i : Instruction) : Cpu :=
  c.set_reg i.d (mask32 (c.reg i.t <<< (c.reg i.s &&& 0x1f)))

/-- Shift Right Logical Variable (shift amount truncated to 5 bits). -/
def op_srlv (c : Cpu) (i : Instruction) : Cpu :=
  c.set_reg i.d (mask32 (c.reg i.t) >>> (c.reg i.s &&& 0x1f))

/-- Shift Right Arithmetic Variable (shift amount truncated to 5 bits). -/
def op_srav (c : Cpu) (i : Instruction) : Cpu :=
  c.set_reg i.d (toU32 (toI32 (c.reg i.t) / (2 ^ (c.reg i.s &&& 0x1f) : Int)))

/-- BGEZ / BLTZ / BGEZAL / BLTZAL, multiplexed on bits 16 and 20. -/
def op_bxx (c : Cpu) (i : Instruction) : Cpu :=
  let offset := i.imm_se
  let s := i.s
  let is_bgez := (i.w >>> 16) &&& 1
  let is_link := (i.w >>> 20) &&& 1 ≠ 0
  let v := toI32 (c.reg s)
  let test : Nat := if v < 0 then 1 else 0
  let test := test ^^^ is_bgez
  if test ≠ 0 then
    let c := if is_link then c.set_reg 31 c.next_pc else c
    c.takeBranch offset
  else
    c

/-- Jump Register. -/
def op_jr (c : Cpu) (i : Instruction) : Cpu :=
  { c with next_pc := c.reg i.s, branch := true }

/-- Jump And Link Register. -/
def op_jalr (c : Cpu) (i : Instruction) : Cpu :=
  let ra := c.next_pc
  let c := c.set_reg i.d ra
  { c with next_pc := c.reg i.s, branch := true }

/-- System call. -/
def op_syscall (c : Cpu) (_ : Instruction) : Cpu := c.exception .SysCall

/-- Break. -/
def op_break (c : Cpu) (_ : Instruction) : Cpu := c.exception .Break

/-- Move From HI. -/
def op_mfhi (c : Cpu) (i : Instruction) : Cpu := c.set_reg i.d c.hi

/-- Move To HI. -/
def op_mthi (c : Cpu) (i : Instruction) : Cpu := { c with hi := c.reg i.s }

/-- Move From LO. -/
def op_mflo (c : Cpu) (i : Instruction) : Cpu := c.set_reg i.d c.lo

/-- Move To LO. -/
def op_mtlo (c : Cpu) (i : Instruction) : Cpu := { c with lo := c.reg i.s }

/-- Multiply (signed): 64-bit product into HI/LO. -/
def op_mult (c : Cpu) (i : Instruction) : Cpu :=
  let a := toI32 (c.reg i.s)
  let b := toI32 (c.reg i.t)
  let v := ((a * b) % 18446744073709551616).toNat
  { c with hi := v >>> 32, lo := mask32 v }

/-- Multiply Unsigned: 64-bit product into HI/LO. -/
def op_multu (c : Cpu) (i : Instruction) : Cpu :=
  let v := mask32 (c.reg i.s) * mask32 (c.reg i.t)
  { c with hi := v >>> 32, lo := mask32 v }

/-- Divide (signed), with the MIPS special cases for division by zero
and the non-representable quotient. -/
def op_div (c : Cpu) (i : Instruction) : Cpu :=
  let n := toI32 (c.reg i.s)
  let d := toI32 (c.reg i.t)
  if d = 0 then
    { c with hi := toU32 n, lo := if 0 ≤ n then 0xffffffff else 1 }
  else if toU32 n = 0x80000000 ∧ d = -1 then
    { c with hi := 0, lo := 0x80000000 }
  else
    { c with hi := toU32 (Int.tmod n d), lo := toU32 (Int.tdiv n d) }

/-- Divide Unsigned. -/
def op_divu (c : Cpu) (i : Instruction) : Cpu :=
  let n := mask32 (c.reg i.s)
  let d := mask32 (c.reg i.t)
  if d = 0 then
    { c with hi := n, lo := 0xffffffff }
  else
    { c with hi := n % d, lo := n / d }

/-- Add with signed-overflow check (`checked_add`). -/
def op_add (c : Cpu) (i : Instruction) : Cpu :=
  let a := toI32 (c.reg i.s)
  let b := toI32 (c.reg i.t)
  if -2147483648 ≤ a + b ∧ a + b < 2147483648 then
    c.set_reg i.d (toU32 (a + b))
  else
    c.exception .Overflow

/-- Add Unsigned (wrapping). -/
def op_addu (c : Cpu) (i : Instruction) : Cpu :=
  c.set_reg i.d (wadd (c.reg i.s) (c.reg i.t))

/-- Subtract with signed-overflow check (`checked_sub`). -/
def op_sub (c : Cpu) (i : Instruction) : Cpu :=
  let a := toI32 (c.reg i.s)
  let b := toI32 (c.reg i.t)
  if -2147483648 ≤ a - b ∧ a - b < 2147483648 then
    c.set_reg i.d (toU32 (a - b))
  else
    c.exception .Overflow

/-- Subtract Unsigned (wrapping). -/
def op_subu (c : Cpu) (i : Instruction) : Cpu :=
  c.set_reg i.d (wsub (c.reg i.s) (c.reg i.t))

/-- Bitwise And. -/
def op_and (c : Cpu) (i : Instruction) : Cpu :=
  c.set_reg i.d (c.reg i.s &&& c.reg i.t)

/-- Bitwise Or. -/
def op_or (c : Cpu) (i : Instruction) : Cpu :=
  c.set_reg i.d (c.reg i.s ||| c.reg i.t)

/-- Bitwise Exclusive Or. -/
def op_xor (c : Cpu) (i : Instruction) : Cpu :=
  c.set_reg i.d (c.reg i.s ^^^ c.reg i.t)

/-- Bitwise Not Or. -/
def op_nor (c : Cpu) (i : Instruction) : Cpu :=
  c.set_reg i.d (not32 (c.reg i.s ||| c.reg i.t))

/-- Set on Less Than (signed). -/
def op_slt (c : Cpu) (i : Instruction) : Cpu :=
  c.set_reg i.d (if toI32 (c.reg i.s) < toI32 (c.reg i.t) then 1 else 0)

/-- Set on Less Than Unsigned. -/
def op_sltu (c : Cpu) (i : Instruction) : Cpu :=
  c.set_reg i.d (if mask32 (c.reg i.s) < mask32 (c.reg i.t) then 1 else 0)

/-- Jump. -/
def op_j (c : Cpu) (i : Instruction) : Cpu :=
  { c with next_pc := (c.pc &&& 0xf0000000) ||| (i.imm_jump <<< 2), branch := true }

/-- Jump And Link: return address into R31, then jump. -/
def op_jal (c : Cpu) (i : Instruction) : Cpu :=
  let ra := c.next_pc
  let c := c.set_reg 31 ra
  let c := c.op_j i
  { c with branch := true }

/-- Branch if Equal. -/
def op_beq (c : Cpu) (i : Instruction) : Cpu :=
  if mask32 (c.reg i.s) = mask32 (c.reg i.t) then c.takeBranch i.imm_se else c

/-- Branch if Not Equal. -/
def op_bne (c : Cpu) (i : Instruction) : Cpu :=
  if mask32 (c.reg i.s) ≠ mask32 (c.reg i.t) then c.takeBranch i.imm_se else c

/-- Branch if Less than or Equal to Zero. -/
def op_blez (c : Cpu) (i : Instruction) : Cpu :=
  if toI32 (c.reg i.s) ≤ 0 then c.takeBranch i.imm_se else c

/-- Branch if Greater Than Zero. -/
def op_bgtz (c : Cpu) (i : Instruction) : Cpu :=
  if 0 < toI32 (c.reg i.s) then c.takeBranch i.imm_se else c

/-- Add Immediate with signed-overflow check. -/
def op_addi (c : Cpu) (i : Instruction) : Cpu :=
  let im := toI32 i.imm_se
  let a := toI32 (c.reg i.s)
  if -2147483648 ≤ a + im ∧ a + im < 2147483648 then
    c.set_reg i.t (toU32 (a + im))
  else
    c.exception .Overflow

/-- Add Immediate Unsigned (wrapping, sign-extended immediate). -/
def op_addiu (c : Cpu) (i : Instruction) : Cpu :=
  c.set_reg i.t (wadd (c.reg i.s) i.imm_se)

/-- Set if Less Than Immediate (signed). -/
def op_slti (c : Cpu) (i : Instruction) : Cpu :=
  c.set_reg i.t (if toI32 (c.reg i.s) < toI32 i.imm_se then 1 else 0)

/-- Set if Less Than Immediate Unsigned. -/
def op_sltiu (c : Cpu) (i : Instruction) : Cpu :=
  c.set_reg i.t (if mask32 (c.reg i.s) < i.imm_se then 1 else 0)

/-- Bitwise And Immediate. -/
def op_andi (c : Cpu) (i : Instruction) : Cpu :=
  c.set_reg i.t (c.reg i.s &&& i.imm)

/-- Bitwise Or Immediate. -/
def op_ori (c : Cpu) (i : Instruction) : Cpu :=
  c.set_reg i.t (mask32 (c.reg i.s) ||| i.imm)

/-- Bitwise Exclusive Or Immediate. -/
def op_xori (c : Cpu) (i : Instruction) : Cpu :=
  c.set_reg i.t (mask32 (c.reg i.s) ^^^ i.imm)

/-- Load Upper Immediate. -/
def op_lui (c : Cpu) (i : Instruction) : Cpu :=
  c.set_reg i.t (i.imm <<< 16)

/-- Move From Coprocessor 0: staged through the load delay slot;
`none` models the fatal read of an unhandled cop0 register. -/
def op_mfc0 (c : Cpu) (i : Instruction) : Option Cpu :=
  let cpu_r := i.t
  match i.d with
  | 12 => some { c with loadReg := cpu_r, loadVal := c.sr }
  | 13 => some { c with loadReg := cpu_r, loadVal := c.cause }
  | 14 => some { c with loadReg := cpu_r, loadVal := c.epc }
  | _ => none

/-- Move To Coprocessor 0; `none` models the fatal unsupported writes. -/
def op_mtc0 (c : Cpu) (i : Instruction) : Option Cpu :=
  let v := c.reg i.t
  match i.d with
  | 3 | 5 | 6 | 7 | 9 | 11 => if v ≠ 0 then none else some c
  | 12 => some { c with sr := v }
  | 13 => if v ≠ 0 then none else some c
  | _ => none

/-- Return From Exception; only the low-six-bit pattern `0b010000` is a
valid RFE, everything else is fatal. -/
def op_rfe (c : Cpu) (i : Instruction) : Option Cpu :=
  if i.w &&& 0x3f ≠ 0b010000 then none
  else some { c with sr := return_from_exception c.sr }

/-- Coprocessor 0 opcode dispatch; unknown cop0 opcodes are fatal. -/
def op_cop0 (c : Cpu) (i : Instruction) : Option Cpu :=
  match i.cop_opcode with
  | 0b00000 => c.op_mfc0 i
  | 0b00100 => c.op_mtc0 i
  | 0b10000 => c.op_rfe i
  | _ => none

/-- Coprocessor 1 does not exist on the PlayStation. -/
def op_cop1 (c : Cpu) (_ : Instruction) : Cpu := c.exception .CoprocessorError

/-- Coprocessor 2 (GTE) is a fatal stub. -/
def op_cop2 (_ : Cpu) (_ : Instruction) : Option Cpu := none

/-- Coprocessor 3 does not exist on the PlayStation. -/
def op_cop3 (c : Cpu) (_ : Instruction) : Cpu := c.exception .CoprocessorError

/-- Load Byte (sign-extended, staged in the load delay slot). -/
def op_lb (c : Cpu) (i : Instruction) : Cpu :=
  let addr := wadd (c.reg i.s) i.imm_se
  let v := c.load .Byte addr
  { c with loadReg := i.t, loadVal := se8 v }

/-- Load Halfword (sign-extended, staged in the load delay slot). -/
def op_lh (c : Cpu) (i : Instruction) : Cpu :=
  let addr := wadd (c.reg i.s) i.imm_se
  let v := c.load .HalfWord addr
  { c with loadReg := i.t, loadVal := se16 v }

/-- Load Word Left (little-endian): merges the aligned word with the
value currently in the output bank, bypassing the load-delay
restriction; `none` models the dead `unreachable` alignment arm. -/
def op_lwl (c : Cpu) (i : Instruction) : Option Cpu :=
  let addr := wadd (c.reg i.s) i.imm_se
  let cur_v := c.out_regs i.t
  let aligned_addr := addr &&& 0xfffffffc
  let aligned_word := c.load .Word aligned_addr
  match addr &&& 3 with
  | 0 => some { c with loadReg := i.t,
                       loadVal := (cur_v &&& 0x00ffffff) ||| mask32 (aligned_word <<< 24) }
  | 1 => some { c with loadReg := i.t,
                       loadVal := (cur_v &&& 0x0000ffff) ||| mask32 (aligned_word <<< 16) }
  | 2 => some { c with loadReg := i.t,
                       loadVal := (cur_v &&& 0x000000ff) ||| mask32 (aligned_word <<< 8) }
  | 3 => some { c with loadReg := i.t,
                       loadVal := (cur_v &&& 0x00000000) ||| mask32 (aligned_word <<< 0) }
  | _ => none

/-- Load Word, 4-aligned; misalignment raises `LoadAddressError`. -/
def op_lw (c : Cpu) (i : Instruction) : Cpu :=
  let addr := wadd (c.reg i.s) i.imm_se
  if addr % 4 = 0 then
    { c with loadReg := i.t, loadVal := c.load .Word addr }
  else
    c.exception .LoadAddressError

/-- Load Byte Unsigned. -/
def op_lbu (c : Cpu) (i : Instruction) : Cpu :=
  let addr := wadd (c.reg i.s) i.imm_se
  { c with loadReg := i.t, loadVal := c.load .Byte addr }

/-- Load Halfword Unsigned, 2-aligned; misalignment raises
`LoadAddressError`. -/
def op_lhu (c : Cpu) (i : Instruction) : Cpu :=
  let addr := wadd (c.reg i.s) i.imm_se
  if addr % 2 = 0 then
    { c with loadReg := i.t, loadVal := c.load .HalfWord addr }
  else
    c.exception .LoadAddressError

/-- Load Word Right (little-endian), the mirror of `op_lwl`. -/
def op_lwr (c : Cpu) (i : Instruction) : Option Cpu :=
  let addr := wadd (c.reg i.s) i.imm_se
  let cur_v := c.out_regs i.t
  let aligned_addr := addr &&& 0xfffffffc
  let aligned_word := c.load .Word aligned_addr
  match addr &&& 3 with
  | 0 => some { c with loadReg := i.t,
                       loadVal := (cur_v &&& 0x00000000) ||| (aligned_word >>> 0) }
  | 1 => some { c with loadReg := i.t,
                       loadVal := (cur_v &&& 0xff000000) ||| (aligned_word >>> 8) }
  | 2 => some { c with loadReg := i.t,
                       loadVal := (cur_v &&& 0xffff0000) ||| (aligned_word >>> 16) }
  | 3 => some { c with loadReg := i.t,
                       loadVal := (cur_v &&& 0xffffff00) ||| (aligned_word >>> 24) }
  | _ => none

/-- Store Byte. -/
def op_sb (c : Cpu) (i : Instruction) : Option Cpu :=
  let addr := wadd (c.reg i.s) i.imm_se
  c.store .Byte addr (c.reg i.t)

/-- Store Halfword, 2-aligned; misalignment raises `StoreAddressError`. -/
def op_sh (c : Cpu) (i : Instruction) : Option Cpu :=
  let addr := wadd (c.reg i.s) i.imm_se
  if addr % 2 = 0 then
    c.store .HalfWord addr (c.reg i.t)
  else
    some (c.exception .StoreAddressError)

/-- Store Word Left: read-modify-write of the aligned word, stored back
at the unaligned address. -/
def op_swl (c : Cpu) (i : Instruction) : Option Cpu :=
  let addr := wadd (c.reg i.s) i.imm_se
  let v := mask32 (c.reg i.t)
  let aligned_addr := addr &&& 0xfffffffc
  let cur_mem := c.load .Word aligned_addr
  match addr &&& 3 with
  | 0 => c.store .Word addr ((cur_mem &&& 0xffffff00) ||| (v >>> 24))
  | 1 => c.store .Word addr ((cur_mem &&& 0xffff0000) ||| (v >>> 16))
  | 2 => c.store .Word addr ((cur_mem &&& 0xff000000) ||| (v >>> 8))
  | 3 => c.store .Word addr ((cur_mem &&& 0x00000000) ||| (v >>> 0))
  | _ => none

/-- Store Word, 4-aligned; misalignment raises `StoreAddressError`. -/
def op_sw (c : Cpu) (i : Instruction) : Option Cpu :=
  let addr := wadd (c.reg i.s) i.imm_se
  if addr % 4 = 0 then
    c.store .Word addr (c.reg i.t)
  else
    some (c.exception .StoreAddressError)

/-- Store Word Right, the mirror of `op_swl`. -/
def op_swr (c : Cpu) (i : Instruction) : Option Cpu :=
  let addr := wadd (c.reg i.s) i.imm_se
  let v := mask32 (c.reg i.t)
  let aligned_addr := addr &&& 0xfffffffc
  let cur_mem := c.load .Word aligned_addr
  match addr &&& 3 with
  | 0 => c.store .Word addr ((cur_mem &&& 0x00000000) ||| mask32 (v <<< 0))
  | 1 => c.store .Word addr ((cur_mem &&& 0x000000ff) ||| mask32 (v <<< 8))
  | 2 => c.store .Word addr ((cur_mem &&& 0x0000ffff) ||| mask32 (v <<< 16))
  | 3 => c.store .Word addr ((cur_mem &&& 0x00ffffff) ||| mask32 (v <<< 24))
  | _ => none

/-- LWC0: not supported by the coprocessor. -/
def op_lwc0 (c : Cpu) (_ : Instruction) : Cpu := c.exception .CoprocessorError

/-- LWC1: not supported by the coprocessor. -/
def op_lwc1 (c : Cpu) (_ : Instruction) : Cpu := c.exception .CoprocessorError

/-- LWC2 (GTE): fatal stub. -/
def op_lwc2 (_ : Cpu) (_ : Instruction) : Option Cpu := none

/-- LWC3: not supported by the coprocessor. -/
def op_lwc3 (c : Cpu) (_ : Instruction) : Cpu := c.exception .CoprocessorError

/-- SWC0: not supported by the coprocessor. -/
def op_swc0 (c : Cpu) (_ : Instruction) : Cpu := c.exception .CoprocessorError

/-- SWC1: not supported by the coprocessor. -/
def op_swc1 (c : Cpu) (_ : Instruction) : Cpu := c.exception .CoprocessorError

/-- SWC2 (GTE): fatal stub. -/
def op_swc2 (_ : Cpu) (_ : Instruction) : Option Cpu := none

/-- SWC3: not supported by the coprocessor. -/
def op_swc3 (c : Cpu) (_ : Instruction) : Cpu := c.exception .CoprocessorError

/-- Illegal instruction. -/
def op_illegal (c : Cpu) (_ : Instruction) : Cpu := c.exception .IllegalInstruction

/-- Opcode dispatch (`Cpu::decode_and_execute`), including the one-cycle
execution charge. -/
def decode_and_execute (c : Cpu) (i : Instruction) : Option Cpu :=
  let c := { c with tkNow := c.tkNow + 1 }
  match i.function with
  | 0b000000 =>
    match i.subfunction with
    | 0b000000 => some (c.op_sll i)
    | 0b000010 => some (c.op_srl i)
    | 0b000011 => some (c.op_sra i)
    | 0b000100 => some (c.op_sllv i)
    | 0b000110 => some (c.op_srlv i)
    | 0b000111 => some (c.op_srav i)
    | 0b001000 => some (c.op_jr i)
    | 0b001001 => some (c.op_jalr i)
    | 0b001100 => some (c.op_syscall i)
    | 0b001101 => some (c.op_break i)
    | 0b010000 => some (c.op_mfhi i)
    | 0b010001 => some (c.op_mthi i)
    | 0b010010 => some (c.op_mflo i)
    | 0b010011 => some (c.op_mtlo i)
    | 0b011000 => some (c.op_mult i)
    | 0b011001 => some (c.op_multu i)
    | 0b011010 => some (c.op_div i)
    | 0b011011 => some (c.op_divu i)
    | 0b100000 => some (c.op_add i)
    | 0b100001 => some (c.op_addu i)
    | 0b100010 => some (c.op_sub i)
    | 0b100011 => some (c.op_subu i)
    | 0b100100 => some (c.op_and i)
    | 0b100101 => some (c.op_or i)
    | 0b100110 => some (c.op_xor i)
    | 0b100111 => some (c.op_nor i)
    | 0b101010 => some (c.op_slt i)
    | 0b101011 => some (c.op_sltu i)
    | _ => some (c.op_illegal i)
  | 0b000001 => some (c.op_bxx i)
  | 0b000010 => some (c.op_j i)
  | 0b000011 => some (c.op_jal i)
  | 0b000100 => some (c.op_beq i)
  | 0b000101 => some (c.op_bne i)
  | 0b000110 => some (c.op_blez i)
  | 0b000111 => some (c.op_bgtz i)
  | 0b001000 => some (c.op_addi i)
  | 0b001001 => some (c.op_addiu i)
  | 0b001010 => some (c.op_slti i)
  | 0b001011 => some (c.op_sltiu i)
  | 0b001100 => some (c.op_andi i)
  | 0b001101 => some (c.op_ori i)
  | 0b001110 => some (c.op_xori i)
  | 0b001111 => some (c.op_lui i)
  | 0b010000 => c.op_cop0 i
  | 0b010001 => some (c.op_cop1 i)
  | 0b010010 => c.op_cop2 i
  | 0b010011 => some (c.op_cop3 i)
  | 0b100000 => some (c.op_lb i)
  | 0b100001 => some (c.op_lh i)
  | 0b100010 => c.op_lwl i
  | 0b100011 => some (c.op_lw i)
  | 0b100100 => some (c.op_lbu i)
  | 0b100101 => some (c.op_lhu i)
  | 0b100110 => c.op_lwr i
  | 0b101000 => c.op_sb i
  | 0b101001 => c.op_sh i
  | 0b101010 => c.op_swl i
  | 0b101011 => c.op_sw i
  | 0b101110 => c.op_swr i
  | 0b110000 => some (c.op_lwc0 i)
  | 0b110001 => some (c.op_lwc1 i)
  | 0b110010 => c.op_lwc2 i
  | 0b110011 => some (c.op_lwc3 i)
  | 0b111000 => some (c.op_swc0 i)
  | 0b111001 => some (c.op_swc1 i)
  | 0b111010 => c.op_swc2 i
  | 0b111011 => some (c.op_swc3 i)
  | _ => some (c.op_illegal i)

/-- Cache-miss refill loop: `count` words starting at line index `idx`,
fetched from `cpc` onwards.  One cycle is charged per word by the caller. -/
def refill (mem : Nat → Nat) : Nat → ICacheLine → Nat → Nat → ICacheLine
  | 0, l, _, _ => l
  | count + 1, l, idx, cpc =>
    refill mem count (l.set_instruction idx ⟨load32 mem cpc⟩) (idx + 1) (wadd cpc 4)

/-- Instruction fetch through the I-cache (`Cpu::fetch_instruction`). -/
def fetch_instruction (c : Cpu) : Cpu × Instruction :=
  let pc := c.current_pc
  let kseg1 := pc &&& 0xe0000000 == 0xa0000000
  if !kseg1 && c.inter.icache_enabled then
    let tag := pc &&& 0xfffff000
    let lineIdx := (pc >>> 4) &&& 0xff
    let index := (pc >>> 2) &&& 3
    let l := c.icache lineIdx
    if l.tag ≠ tag ∨ index < l.valid_index then
      let l := refill c.inter.mem (4 - index) l index pc
      let l := l.set_tag_valid pc
      let c := { c with
        tkNow := c.tkNow + 3 + (4 - index),
        icache := fun j => if j = lineIdx then l else c.icache j }
      (c, l.instruction index)
    else
      (c, l.instruction index)
  else
    ({ c with tkNow := c.tkNow + 4 }, ⟨c.inter.load_instruction pc⟩)

/-- One CPU step (`Cpu::run_next_instruction`): snapshot `current_pc`,
check fetch alignment, fetch, advance the PC pair, retire the pending
load, rotate the branch flag into the delay-slot flag, execute, and
commit the output registers. -/
def run_next_instruction (c : Cpu) : Option Cpu :=
  let c := { c with current_pc := c.pc }
  if c.current_pc % 4 ≠ 0 then
    some (c.exception .LoadAddressError)
  else
    let (c, instruction) := c.fetch_instruction
    let c := { c with pc := c.next_pc, next_pc := wadd c.next_pc 4 }
    let c := c.set_reg c.loadReg c.loadVal
    let c := { c with loadReg := 0, loadVal := 0 }
    let c := { c with delay_slot := c.branch, branch := false }
    match c.decode_and_execute instruction with
    | none => none
    | some c => some { c with regs := c.out_regs }

end Cpu

end Psx

namespace Psx

/-! ## Helper lemmas -/

theorem mask32_lt (x : Nat) : mask32 x < 4294967296 := Nat.mod_lt _ (by omega)

theorem load8_lt (m : Nat → Nat) (a : Nat) : load8 m a < 256 := Nat.mod_lt _ (by omega)

theorem load32_lt (m : Nat → Nat) (a : Nat) : load32 m a < 4294967296 := by
  have h0 := load8_lt m a
  have h1 := load8_lt m (a + 1)
  have h2 := load8_lt m (a + 2)
  have h3 := load8_lt m (a + 3)
  unfold load32
  omega

theorem and_three_eq_mod (x : Nat) : x &&& 3 = x % 4 := by
  have h := Nat.and_pow_two_sub_one_eq_mod x 2
  norm_num at h
  exact h

theorem and_three_lt (x : Nat) : x &&& 3 < 4 := by
  rw [and_three_eq_mod]; omega

theorem loadW_word_lt (m : Nat → Nat) (a : Nat) : loadW .Word m a < 4294967296 :=
  load32_lt m a

end Psx

namespace Psx

/-! ## C9: examine is side-effect free and idempotent -/

/-- C9: for every address and width, `examine` leaves the CPU state —
registers, PC pair, HI/LO, cop0 state, I-cache, pending load, memory and
elapsed cycle count — untouched, and two successive calls return equal
values. -/
theorem examine_idempotent (c : Cpu) (w : AccessWidth) (a : Nat) :
    (c.examine w a).1 = c ∧
    (c.examine w a).2 = (((c.examine w a).1).examine w a).2 :=
  ⟨rfl, rfl⟩

/-! ## C2: LWL / LWR blend semantics -/

/-- C2: every execution of LWL (resp. LWR) stages into the pending-load
slot for `rt` the blend, selected by `EA & 3`, of `cur = out_regs[rt]`
with the aligned word loaded at `EA & ~3`, following the alignment table
of the specification. -/
theorem lwl_lwr_blend (c : Cpu) (i : Instruction) :
    (∀ c', c.op_lwl i = some c' →
      c'.loadReg = i.t ∧
      c'.loadVal =
        (if wadd (c.reg i.s) i.imm_se &&& 3 = 0 then
          (c.out_regs i.t &&& 0x00ffffff) |||
            mask32 (c.load .Word (wadd (c.reg i.s) i.imm_se &&& 0xfffffffc) <<< 24)
        else if wadd (c.reg i.s) i.imm_se &&& 3 = 1 then
          (c.out_regs i.t &&& 0x0000ffff) |||
            mask32 (c.load .Word (wadd (c.reg i.s) i.imm_se &&& 0xfffffffc) <<< 16)
        else if wadd (c.reg i.s) i.imm_se &&& 3 = 2 then
          (c.out_regs i.t &&& 0x000000ff) |||
            mask32 (c.load .Word (wadd (c.reg i.s) i.imm_se &&& 0xfffffffc) <<< 8)
        else
          c.load .Word (wadd (c.reg i.s) i.imm_se &&& 0xfffffffc))) ∧
    (∀ c', c.op_lwr i = some c' →
      c'.loadReg = i.t ∧
      c'.loadVal =
        (if wadd (c.reg i.s) i.imm_se &&& 3 = 0 then
          c.load .Word (wadd (c.reg i.s) i.imm_se &&& 0xfffffffc)
        else if wadd (c.reg i.s) i.imm_se &&& 3 = 1 then
          (c.out_regs i.t &&& 0xff000000) |||
            (c.load .Word (wadd (c.reg i.s) i.imm_se &&& 0xfffffffc) >>> 8)
        else if wadd (c.reg i.s) i.imm_se &&& 3 = 2 then
          (c.out_regs i.t &&& 0xffff0000) |||
            (c.load .Word (wadd (c.reg i.s) i.imm_se &&& 0xfffffffc) >>> 16)
        else
          (c.out_regs i.t &&& 0xffffff00) |||
            (c.load .Word (wadd (c.reg i.s) i.imm_se &&& 0xfffffffc) >>> 24))) := by
  constructor
  · intro c' h
    simp only [Cpu.op_lwl] at h
    split at h
    · rename_i heq
      cases h
      simp [heq]
    · rename_i heq
      cases h
      simp [heq]
    · rename_i heq
      cases h
      simp [heq]
    · rename_i heq
      cases h
      have hlt := loadW_word_lt c.inter.mem
        (wadd (c.reg i.s) i.imm_se &&& 0xfffffffc)
      simp [heq, Cpu.load, Interconnect.load, mask32, Nat.mod_eq_of_lt, hlt]
    · exact absurd h (by simp)
  · intro c' h
    simp only [Cpu.op_lwr] at h
    split at h
    · rename_i heq
      cases h
      simp [heq]
    · rename_i heq
      cases h
      simp [heq]
    · rename_i heq
      cases h
      simp [heq]
    · rename_i heq
      cases h
      simp [heq]
    · exact absurd h (by simp)

end Psx

namespace Psx

/-! ## Bit-level characterization of the SR mode stack -/

theorem and_mask63 (x : Nat) : x &&& 63 = x % 64 := by
  have h := Nat.and_pow_two_sub_one_eq_mod x 6
  norm_num at h
  exact h

theorem and_high_eq (s : Nat) (h : s < 4294967296) :
    s &&& 0xffffffc0 = 64 * (s / 64) := by
  have hx : (0xffffffc0 : Nat) = (2 ^ 32 - 1) ^^^ (2 ^ 6 - 1) := by decide
  have hy : 64 * (s / 64) = (s >>> 6) <<< 6 := by
    rw [Nat.shiftLeft_eq, Nat.shiftRight_eq_div_pow]
    norm_num
    omega
  rw [hx, hy]
  apply Nat.eq_of_testBit_eq
  intro i
  simp only [Nat.testBit_and, Nat.testBit_xor, Nat.testBit_shiftLeft, Nat.testBit_shiftRight,
    Nat.testBit_two_pow_sub_one]
  by_cases h6 : i < 6
  · simp [show ¬(6 ≤ i) by omega, show i < 32 by omega, h6]
  · by_cases h32 : i < 32
    · rw [show 6 + (i - 6) = i by omega]
      simp [show 6 ≤ i by omega, h6, h32]
    · have hpow : (2 : Nat) ^ 32 = 4294967296 := by norm_num
      have hz : Nat.testBit s i = false := by
        apply Nat.testBit_lt_two_pow
        have h1 : (2 : Nat) ^ 32 ≤ 2 ^ i := Nat.pow_le_pow_right (by omega) (by omega)
        omega
      rw [show 6 + (i - 6) = i by omega]
      simp [hz]

theorem enter_exception_eq (s : Nat) (h : s < 4294967296) :
    enter_exception s = 64 * (s / 64) + s % 64 * 4 % 64 := by
  have hnot : not32 63 = 0xffffffc0 := by decide
  have hb : s % 64 * 4 % 64 < 2 ^ 6 := by
    have := Nat.mod_lt (s % 64 * 4) (show 0 < 64 by omega)
    omega
  simp only [enter_exception, hnot]
  rw [and_high_eq s h, and_mask63, Nat.shiftLeft_eq, and_mask63,
    show (2 : Nat) ^ 2 = 4 from rfl,
    show 64 * (s / 64) = 2 ^ 6 * (s / 64) by norm_num]
  rw [← Nat.mul_add_lt_is_or hb]

theorem return_from_exception_eq (s : Nat) (h : s < 4294967296) :
    return_from_exception s = 64 * (s / 64) + s % 64 / 4 := by
  have hnot : not32 63 = 0xffffffc0 := by decide
  have hb : s % 64 / 4 < 2 ^ 6 := by
    have := Nat.mod_lt s (show 0 < 64 by omega)
    omega
  simp only [return_from_exception, hnot]
  rw [and_high_eq s h, and_mask63, Nat.shiftRight_eq_div_pow,
    show (2 : Nat) ^ 2 = 4 from rfl,
    show 64 * (s / 64) = 2 ^ 6 * (s / 64) by norm_num]
  rw [← Nat.mul_add_lt_is_or hb]

/-! ## C8: RFE after enter_exception on the SR mode stack -/

/-- C8: for every 32-bit `SR` value, entering an exception and returning
from it restores bits [3:0] of `SR[5:0]` while bits [5:4] come back zero
(the topmost stack entry is discarded), and bits [31:6] are unchanged by
both operations. -/
theorem rfe_enter_exception_roundtrip (s : Nat) (h : s < 4294967296) :
    return_from_exception (enter_exception s) &&& 0xf = s &&& 0xf ∧
    (return_from_exception (enter_exception s) >>> 4) &&& 3 = 0 ∧
    enter_exception s >>> 6 = s >>> 6 ∧
    return_from_exception (enter_exception s) >>> 6 = s >>> 6 := by
  have he := enter_exception_eq s h
  have hlt : enter_exception s < 4294967296 := by
    rw [he]
    have := Nat.mod_lt (s % 64 * 4) (show 0 < 64 by omega)
    omega
  have hr := return_from_exception_eq _ hlt
  rw [he] at hr
  have h15 : ∀ x : Nat, x &&& 15 = x % 16 := fun x => by
    have hx := Nat.and_pow_two_sub_one_eq_mod x 4
    norm_num at hx
    exact hx
  rw [he, hr]
  simp only [h15, and_three_eq_mod, Nat.shiftRight_eq_div_pow]
  norm_num
  omega

end Psx

namespace Psx

/-- Witness for the C8 round-trip at the concrete status word
`0x0034567b` (mode stack `0b111011`). -/
theorem rfe_enter_exception_roundtrip_witness :
    0x0034567b < 4294967296 ∧
    (return_from_exception (enter_exception 0x0034567b) &&& 0xf = 0x0034567b &&& 0xf ∧
     (return_from_exception (enter_exception 0x0034567b) >>> 4) &&& 3 = 0 ∧
     enter_exception 0x0034567b >>> 6 = 0x0034567b >>> 6 ∧
     return_from_exception (enter_exception 0x0034567b) >>> 6 = 0x0034567b >>> 6) :=
  ⟨by decide, rfe_enter_exception_roundtrip 0x0034567b (by decide)⟩

/-- A step `c → c'` that left the exception-related architectural state
(SR, Cause, EPC and the PC pair) untouched: no exception was raised. -/
def ExcFree (c c' : Cpu) : Prop :=
  c'.sr = c.sr ∧ c'.cause = c.cause ∧ c'.epc = c.epc ∧
    c'.pc = c.pc ∧ c'.next_pc = c.next_pc

theorem store_excfree (c : Cpu) (w : AccessWidth) (a v : Nat) (c' : Cpu)
    (h : c.store w a v = some c') : ExcFree c c' := by
  simp only [Cpu.store, Cpu.cache_maintenance] at h
  split at h
  · split at h
    · exact absurd h (by simp)
    · split at h
      · exact absurd h (by simp)
      · cases h
        exact ⟨rfl, rfl, rfl, rfl, rfl⟩
  · cases h
    exact ⟨rfl, rfl, rfl, rfl, rfl⟩

/-! ## C10: byte and unaligned-word accesses never fault -/

/-- C10: LB, LBU, SB, LWL, LWR, SWL and SWR perform no alignment check:
for every effective address, including misaligned ones, they leave SR,
Cause, EPC and the PC pair untouched, so no LoadAddressError or
StoreAddressError (indeed no exception at all) is raised. -/
theorem byte_and_unaligned_ops_never_fault (c : Cpu) (i : Instruction) :
    ExcFree c (c.op_lb i) ∧
    ExcFree c (c.op_lbu i) ∧
    (∀ c', c.op_sb i = some c' → ExcFree c c') ∧
    (∀ c', c.op_lwl i = some c' → ExcFree c c') ∧
    (∀ c', c.op_lwr i = some c' → ExcFree c c') ∧
    (∀ c', c.op_swl i = some c' → ExcFree c c') ∧
    (∀ c', c.op_swr i = some c' → ExcFree c c') := by
  refine ⟨⟨rfl, rfl, rfl, rfl, rfl⟩, ⟨rfl, rfl, rfl, rfl, rfl⟩, ?_, ?_, ?_, ?_, ?_⟩
  · intro c' h
    exact store_excfree _ _ _ _ _ h
  · intro c' h
    simp only [Cpu.op_lwl] at h
    split at h <;> first
      | (cases h; exact ⟨rfl, rfl, rfl, rfl, rfl⟩)
      | exact absurd h (by simp)
  · intro c' h
    simp only [Cpu.op_lwr] at h
    split at h <;> first
      | (cases h; exact ⟨rfl, rfl, rfl, rfl, rfl⟩)
      | exact absurd h (by simp)
  · intro c' h
    simp only [Cpu.op_swl] at h
    split at h <;> first
      | exact store_excfree _ _ _ _ _ h
      | exact absurd h (by simp)
  · intro c' h
    simp only [Cpu.op_swr] at h
    split at h <;> first
      | exact store_excfree _ _ _ _ _ h
      | exact absurd h (by simp)

end Psx

namespace Psx

/-- Concrete CPU state builder used by witnesses and counterexamples:
reset-like state with a given register file and flat memory. -/
def cpuOf (rs : Nat → Nat) (m : Nat → Nat) : Cpu :=
  { tkNow := 0, pc := 0xbfc00000, next_pc := 0xbfc00004, current_pc := 0,
    regs := rs, out_regs := rs, hi := 0, lo := 0,
    icache := fun _ => ICacheLine.new, inter := ⟨m, true, false⟩,
    sr := 0, cause := 0, epc := 0, loadReg := 0, loadVal := 0,
    branch := false, delay_slot := false }

/-- Witness state: R1 = 0x1001, so `EA = R1 + 2 = 0x1003` is misaligned. -/
def cpuW : Cpu := cpuOf (fun j => if j = 1 then 0x1001 else 0) (fun _ => 0)

/-- Witness for C10 at the misaligned effective address `0x1003`, with
the opcode-appropriate instruction words (`rs = 1`, `rt = 2`, `imm = 2`). -/
theorem byte_and_unaligned_ops_never_fault_witness :
    ExcFree cpuW (cpuW.op_lb ⟨0x80220002⟩) ∧
    ExcFree cpuW (cpuW.op_lbu ⟨0x90220002⟩) ∧
    ExcFree cpuW ((cpuW.op_sb ⟨0xa0220002⟩).getD cpuW) ∧
    ExcFree cpuW ((cpuW.op_lwl ⟨0x88220002⟩).getD cpuW) ∧
    ExcFree cpuW ((cpuW.op_lwr ⟨0x98220002⟩).getD cpuW) ∧
    ExcFree cpuW ((cpuW.op_swl ⟨0xa8220002⟩).getD cpuW) ∧
    ExcFree cpuW ((cpuW.op_swr ⟨0xb8220002⟩).getD cpuW) :=
  ⟨(byte_and_unaligned_ops_never_fault cpuW ⟨0x80220002⟩).1,
   (byte_and_unaligned_ops_never_fault cpuW ⟨0x90220002⟩).2.1,
   (byte_and_unaligned_ops_never_fault cpuW ⟨0xa0220002⟩).2.2.1 _ rfl,
   (byte_and_unaligned_ops_never_fault cpuW ⟨0x88220002⟩).2.2.2.1 _ rfl,
   (byte_and_unaligned_ops_never_fault cpuW ⟨0x98220002⟩).2.2.2.2.1 _ rfl,
   (byte_and_unaligned_ops_never_fault cpuW ⟨0xa8220002⟩).2.2.2.2.2.1 _ rfl,
   (byte_and_unaligned_ops_never_fault cpuW ⟨0xb8220002⟩).2.2.2.2.2.2 _ rfl⟩

end Psx

namespace Psx

/-! ## C3: ADD / ADDI / SUB signed-overflow semantics -/

theorem exception_out_regs (c : Cpu) (e : Exception) :
    (c.exception e).out_regs = c.out_regs := rfl

/-- C3: for ADD, ADDI and SUB, a signed-overflowing operation raises the
Overflow exception and leaves the (output) register bank — in particular
the destination register — unchanged; a non-overflowing one writes the
signed result to the destination (register 0 staying hard-wired to zero)
and raises no exception. -/
theorem add_addi_sub_overflow (c : Cpu) (i : Instruction) :
    (¬(-2147483648 ≤ toI32 (c.reg i.s) + toI32 (c.reg i.t) ∧
        toI32 (c.reg i.s) + toI32 (c.reg i.t) < 2147483648) →
      c.op_add i = c.exception .Overflow ∧ (c.op_add i).out_regs = c.out_regs) ∧
    ((-2147483648 ≤ toI32 (c.reg i.s) + toI32 (c.reg i.t) ∧
        toI32 (c.reg i.s) + toI32 (c.reg i.t) < 2147483648) →
      (c.op_add i).out_regs i.d =
        (if i.d = 0 then 0 else toU32 (toI32 (c.reg i.s) + toI32 (c.reg i.t))) ∧
      ExcFree c (c.op_add i)) ∧
    (¬(-2147483648 ≤ toI32 (c.reg i.s) + toI32 i.imm_se ∧
        toI32 (c.reg i.s) + toI32 i.imm_se < 2147483648) →
      c.op_addi i = c.exception .Overflow ∧ (c.op_addi i).out_regs = c.out_regs) ∧
    ((-2147483648 ≤ toI32 (c.reg i.s) + toI32 i.imm_se ∧
        toI32 (c.reg i.s) + toI32 i.imm_se < 2147483648) →
      (c.op_addi i).out_regs i.t =
        (if i.t = 0 then 0 else toU32 (toI32 (c.reg i.s) + toI32 i.imm_se)) ∧
      ExcFree c (c.op_addi i)) ∧
    (¬(-2147483648 ≤ toI32 (c.reg i.s) - toI32 (c.reg i.t) ∧
        toI32 (c.reg i.s) - toI32 (c.reg i.t) < 2147483648) →
      c.op_sub i = c.exception .Overflow ∧ (c.op_sub i).out_regs = c.out_regs) ∧
    ((-2147483648 ≤ toI32 (c.reg i.s) - toI32 (c.reg i.t) ∧
        toI32 (c.reg i.s) - toI32 (c.reg i.t) < 2147483648) →
      (c.op_sub i).out_regs i.d =
        (if i.d = 0 then 0 else toU32 (toI32 (c.reg i.s) - toI32 (c.reg i.t))) ∧
      ExcFree c (c.op_sub i)) := by
  refine ⟨fun h => ?_, fun h => ?_, fun h => ?_, fun h => ?_, fun h => ?_, fun h => ?_⟩
  · rw [Cpu.op_add, if_neg h]
    exact ⟨rfl, rfl⟩
  · rw [Cpu.op_add, if_pos h]
    refine ⟨?_, rfl, rfl, rfl, rfl, rfl⟩
    simp only [Cpu.set_reg]
    split
    · rename_i hd
      simp [hd]
    · rename_i hd
      simp [hd]
  · rw [Cpu.op_addi, if_neg h]
    exact ⟨rfl, rfl⟩
  · rw [Cpu.op_addi, if_pos h]
    refine ⟨?_, rfl, rfl, rfl, rfl, rfl⟩
    simp only [Cpu.set_reg]
    split
    · rename_i hd
      simp [hd]
    · rename_i hd
      simp [hd]
  · rw [Cpu.op_sub, if_neg h]
    exact ⟨rfl, rfl⟩
  · rw [Cpu.op_sub, if_pos h]
    refine ⟨?_, rfl, rfl, rfl, rfl, rfl⟩
    simp only [Cpu.set_reg]
    split
    · rename_i hd
      simp [hd]
    · rename_i hd
      simp [hd]

end Psx

namespace Psx

/-- Overflowing operand state: R1 = 0x7fffffff, R2 = 1. -/
def cpuOvf : Cpu :=
  cpuOf (fun j => if j = 1 then 0x7fffffff else if j = 2 then 1 else 0) (fun _ => 0)

/-- Overflowing subtraction state: R1 = 0x80000000 (min i32), R2 = 1. -/
def cpuSubOvf : Cpu :=
  cpuOf (fun j => if j = 1 then 0x80000000 else if j = 2 then 1 else 0) (fun _ => 0)

/-- Small-operand state: R1 = 10, R2 = 3. -/
def cpuOk : Cpu :=
  cpuOf (fun j => if j = 1 then 10 else if j = 2 then 3 else 0) (fun _ => 0)

/-- Witness for C3: `add r3, r1, r2` / `addi r2, r1, 0x7fff` /
`sub r3, r1, r2` at overflowing and at small operands. -/
theorem add_addi_sub_overflow_witness :
    (cpuOvf.op_add ⟨0x00221820⟩ = cpuOvf.exception .Overflow ∧
      (cpuOvf.op_add ⟨0x00221820⟩).out_regs = cpuOvf.out_regs) ∧
    ((cpuOk.op_add ⟨0x00221820⟩).out_regs 3 = 13 ∧ ExcFree cpuOk (cpuOk.op_add ⟨0x00221820⟩)) ∧
    (cpuOvf.op_addi ⟨0x20227fff⟩ = cpuOvf.exception .Overflow ∧
      (cpuOvf.op_addi ⟨0x20227fff⟩).out_regs = cpuOvf.out_regs) ∧
    ((cpuOk.op_addi ⟨0x20227fff⟩).out_regs 2 = 32777 ∧
      ExcFree cpuOk (cpuOk.op_addi ⟨0x20227fff⟩)) ∧
    (cpuSubOvf.op_sub ⟨0x00221822⟩ = cpuSubOvf.exception .Overflow ∧
      (cpuSubOvf.op_sub ⟨0x00221822⟩).out_regs = cpuSubOvf.out_regs) ∧
    ((cpuOk.op_sub ⟨0x00221822⟩).out_regs 3 = 7 ∧ ExcFree cpuOk (cpuOk.op_sub ⟨0x00221822⟩)) :=
  ⟨(add_addi_sub_overflow cpuOvf ⟨0x00221820⟩).1 (by decide),
   (add_addi_sub_overflow cpuOk ⟨0x00221820⟩).2.1 (by decide),
   (add_addi_sub_overflow cpuOvf ⟨0x20227fff⟩).2.2.1 (by decide),
   (add_addi_sub_overflow cpuOk ⟨0x20227fff⟩).2.2.2.1 (by decide),
   (add_addi_sub_overflow cpuSubOvf ⟨0x00221822⟩).2.2.2.2.1 (by decide),
   (add_addi_sub_overflow cpuOk ⟨0x00221822⟩).2.2.2.2.2 (by decide)⟩

end Psx

namespace Psx

/-! ## C4: DIV special cases -/

/-- C4: DIV with signed dividend `n` and divisor `d`: division by zero
gives HI = n and LO = 0xffffffff (n ≥ 0) or 1 (n < 0); the
non-representable quotient `0x80000000 / -1` gives HI = 0,
LO = 0x80000000; otherwise HI/LO receive the remainder and the quotient
of truncated-toward-zero division.  No exception is raised and the
register bank is untouched in every case. -/
theorem div_cases (c : Cpu) (i : Instruction) :
    (toI32 (c.reg i.t) = 0 →
      (c.op_div i).hi = toU32 (toI32 (c.reg i.s)) ∧
      (c.op_div i).lo = (if 0 ≤ toI32 (c.reg i.s) then 0xffffffff else 1)) ∧
    (toU32 (toI32 (c.reg i.s)) = 0x80000000 → toI32 (c.reg i.t) = -1 →
      (c.op_div i).hi = 0 ∧ (c.op_div i).lo = 0x80000000) ∧
    (toI32 (c.reg i.t) ≠ 0 →
      ¬(toU32 (toI32 (c.reg i.s)) = 0x80000000 ∧ toI32 (c.reg i.t) = -1) →
      (c.op_div i).hi = toU32 (Int.tmod (toI32 (c.reg i.s)) (toI32 (c.reg i.t))) ∧
      (c.op_div i).lo = toU32 (Int.tdiv (toI32 (c.reg i.s)) (toI32 (c.reg i.t)))) ∧
    ExcFree c (c.op_div i) ∧ (c.op_div i).out_regs = c.out_regs := by
  refine ⟨fun hd => ?_, fun hn hd => ?_, fun hd hnd => ?_, ?_, ?_⟩
  · rw [Cpu.op_div, if_pos hd]
    exact ⟨rfl, rfl⟩
  · have hd0 : toI32 (c.reg i.t) ≠ 0 := by rw [hd]; decide
    rw [Cpu.op_div, if_neg hd0, if_pos ⟨hn, hd⟩]
    exact ⟨rfl, rfl⟩
  · rw [Cpu.op_div, if_neg hd, if_neg hnd]
    exact ⟨rfl, rfl⟩
  · rw [Cpu.op_div]
    split
    · exact ⟨rfl, rfl, rfl, rfl, rfl⟩
    · split
      · exact ⟨rfl, rfl, rfl, rfl, rfl⟩
      · exact ⟨rfl, rfl, rfl, rfl, rfl⟩
  · rw [Cpu.op_div]
    split
    · rfl
    · split
      · rfl
      · rfl

/-- States for the DIV witness: R1 = dividend, R2 = divisor. -/
def cpuDiv (a b : Nat) : Cpu :=
  cpuOf (fun j => if j = 1 then a else if j = 2 then b else 0) (fun _ => 0)

/-- Witness for C4: `div r1, r2` (word 0x0022001a) at a zero divisor, at
the non-representable quotient, and at `-7 / 2`. -/
theorem div_cases_witness :
    ((cpuDiv 7 0).op_div ⟨0x0022001a⟩).hi = toU32 (toI32 ((cpuDiv 7 0).reg 1)) ∧
    ((cpuDiv 7 0).op_div ⟨0x0022001a⟩).lo =
      (if 0 ≤ toI32 ((cpuDiv 7 0).reg 1) then 0xffffffff else 1) ∧
    ((cpuDiv 0x80000000 0xffffffff).op_div ⟨0x0022001a⟩).hi = 0 ∧
    ((cpuDiv 0x80000000 0xffffffff).op_div ⟨0x0022001a⟩).lo = 0x80000000 ∧
    ((cpuDiv 0xfffffff9 2).op_div ⟨0x0022001a⟩).hi =
      toU32 (Int.tmod (toI32 ((cpuDiv 0xfffffff9 2).reg 1)) (toI32 ((cpuDiv 0xfffffff9 2).reg 2))) ∧
    ((cpuDiv 0xfffffff9 2).op_div ⟨0x0022001a⟩).lo =
      toU32 (Int.tdiv (toI32 ((cpuDiv 0xfffffff9 2).reg 1)) (toI32 ((cpuDiv 0xfffffff9 2).reg 2))) ∧
    ExcFree (cpuDiv 7 0) ((cpuDiv 7 0).op_div ⟨0x0022001a⟩) :=
  ⟨((div_cases (cpuDiv 7 0) ⟨0x0022001a⟩).1 (by decide)).1,
   ((div_cases (cpuDiv 7 0) ⟨0x0022001a⟩).1 (by decide)).2,
   ((div_cases (cpuDiv 0x80000000 0xffffffff) ⟨0x0022001a⟩).2.1 (by decide) (by decide)).1,
   ((div_cases (cpuDiv 0x80000000 0xffffffff) ⟨0x0022001a⟩).2.1 (by decide) (by decide)).2,
   ((div_cases (cpuDiv 0xfffffff9 2) ⟨0x0022001a⟩).2.2.1 (by decide) (by decide)).1,
   ((div_cases (cpuDiv 0xfffffff9 2) ⟨0x0022001a⟩).2.2.1 (by decide) (by decide)).2,
   (div_cases (cpuDiv 7 0) ⟨0x0022001a⟩).2.2.2.1⟩

end Psx

namespace Psx

/-! ## C5: exception entry protocol -/

theorem and_bit22 (x : Nat) :
    x &&& 4194304 = (if x / 4194304 % 2 = 1 then 1 else 0) * 4194304 := by
  have h1 := Nat.and_two_pow x 22
  have h2 : (2 : Nat) ^ 22 = 4194304 := by norm_num
  rw [h2] at h1
  rw [h1, Nat.testBit_to_div_mod, h2]
  by_cases hx : x / 4194304 % 2 = 1 <;> simp [hx]

theorem exception_handler_enter (s : Nat) (h : s < 4294967296) :
    exception_handler (enter_exception s) =
      (if (s >>> 22) &&& 1 = 1 then 0xbfc00180 else 0x80000080) := by
  have he := enter_exception_eq s h
  have h22 : (1 <<< 22 : Nat) = 4194304 := by decide
  have hdiv : enter_exception s / 4194304 % 2 = s / 4194304 % 2 := by
    have h1 : enter_exception s / 64 = s / 64 := by rw [he]; omega
    have h2 : enter_exception s / 4194304 = enter_exception s / 64 / 65536 := by
      rw [Nat.div_div_eq_div_mul]
    have h3 : s / 4194304 = s / 64 / 65536 := by
      rw [Nat.div_div_eq_div_mul]
    rw [h2, h3, h1]
  have hsr : (s >>> 22) &&& 1 = s / 4194304 % 2 := by
    rw [Nat.shiftRight_eq_div_pow, Nat.and_one_is_mod]
    try norm_num
  unfold exception_handler
  rw [h22, and_bit22, hdiv, hsr]
  by_cases hx : s / 4194304 % 2 = 1 <;> simp [hx]

/-- C5: raising an exception with code `c` sets `EPC` to `current_pc`
(rewound by 4, with Cause bit 31 set, when the faulting instruction sat
in a delay slot), stores the code in Cause bits [6:2], jumps to the
BEV-selected handler and schedules no delay slot
(`next_pc = pc + 4`). -/
theorem exception_protocol (c : Cpu) (e : Exception) (hsr : c.sr < 4294967296) :
    (c.exception e).epc =
      (if c.delay_slot then wsub c.current_pc 4 else c.current_pc) ∧
    ((c.exception e).cause >>> 2) &&& 0x1f = e.code ∧
    ((c.exception e).cause >>> 31) &&& 1 = (if c.delay_slot then 1 else 0) ∧
    (c.exception e).pc = (if (c.sr >>> 22) &&& 1 = 1 then 0xbfc00180 else 0x80000080) ∧
    (c.exception e).next_pc = wadd (c.exception e).pc 4 := by
  have hh := exception_handler_enter c.sr hsr
  cases hds : c.delay_slot <;>
    refine ⟨?_, ?_, ?_, ?_, ?_⟩ <;>
      simp only [Cpu.exception, hds, Bool.false_eq_true, if_false, if_true, hh] <;>
        first
          | rfl
          | (cases e <;> decide)

end Psx

namespace Psx

/-- Exception-witness state: BEV set (bit 22 of SR), executing in a
delay slot at `current_pc = 0x80100008`. -/
def cpuE : Cpu :=
  { cpuOf (fun _ => 0) (fun _ => 0) with
      sr := 0x400000, delay_slot := true, current_pc := 0x80100008 }

/-- Witness for C5: a SYSCALL raised from a delay slot with BEV set. -/
theorem exception_protocol_witness :
    (cpuE.exception .SysCall).epc = 0x80100004 ∧
    ((cpuE.exception .SysCall).cause >>> 2) &&& 0x1f = 8 ∧
    ((cpuE.exception .SysCall).cause >>> 31) &&& 1 = 1 ∧
    (cpuE.exception .SysCall).pc = 0xbfc00180 ∧
    (cpuE.exception .SysCall).next_pc = 0xbfc00184 :=
  exception_protocol cpuE .SysCall (by decide)

end Psx

namespace Psx

/-- Memory pattern of the unaligned-load scenario: word 0x76543210 at
address 0 and word 0xfedcba98 at address 4. -/
def memL : Nat → Nat := fun a =>
  if a = 0 then 0x10 else if a = 1 then 0x32 else if a = 2 then 0x54 else
  if a = 3 then 0x76 else if a = 4 then 0x98 else if a = 5 then 0xba else
  if a = 6 then 0xdc else if a = 7 then 0xfe else 0

/-- Unaligned-load witness state: R1 = 1 and a pending value
0xffffffff already in `out_regs[2]`. -/
def cpuL : Cpu :=
  cpuOf (fun j => if j = 1 then 1 else if j = 2 then 0xffffffff else 0) memL

/-- Witness for C2: `lwl r2, 2(r1)` (EA = 3, alignment 3) and
`lwr r2, 4(r1)` (EA = 5, alignment 1) against the pattern memory. -/
theorem lwl_lwr_blend_witness :
    ((cpuL.op_lwl ⟨0x88220002⟩).getD cpuL).loadReg = 2 ∧
    ((cpuL.op_lwl ⟨0x88220002⟩).getD cpuL).loadVal = 0x76543210 ∧
    ((cpuL.op_lwr ⟨0x98220004⟩).getD cpuL).loadReg = 2 ∧
    ((cpuL.op_lwr ⟨0x98220004⟩).getD cpuL).loadVal = 0xfffedcba :=
  ⟨((lwl_lwr_blend cpuL ⟨0x88220002⟩).1 _ rfl).1,
   ((lwl_lwr_blend cpuL ⟨0x88220002⟩).1 _ rfl).2,
   ((lwl_lwr_blend cpuL ⟨0x98220004⟩).2 _ rfl).1,
   ((lwl_lwr_blend cpuL ⟨0x98220004⟩).2 _ rfl).2⟩

end Psx

namespace Psx

/-! ## C1: link-register write on untaken BGEZAL/BLTZAL -/

/-- Memory holding the word 0x04100002 (`bltzal r0, +2`) at every
word-aligned address. -/
def memBxx : Nat → Nat := fun a =>
  if a % 4 = 0 then 2 else if a % 4 = 2 then 0x10 else
  if a % 4 = 3 then 0x04 else 0

/-- State about to execute `bltzal r0, +2` from the uncached KSEG1
window, with every register (including R31) zero. -/
def cpuBxx : Cpu :=
  { cpuOf (fun _ => 0) memBxx with pc := 0xa0000000, next_pc := 0xa0000004 }

/-- C1 failing run: executing `bltzal r0, +2` with `reg[rs] = 0` (branch
condition false) completes the step with R31 still 0 — the return
address `next_pc = 0xa0000008` is *not* written — and no branch taken,
contradicting the unconditional-link claim (and the repository's own
`test_bltzal_and_bgezal`, which asserts R31 is written by an untaken
BLTZAL). -/
theorem bltzal_not_taken_r31_not_written :
    (cpuBxx.run_next_instruction).map
        (fun c => (c.regs 31, c.out_regs 31, c.next_pc, c.branch)) =
      some (0, 0, 0xa0000008, false) := by
  rfl

end Psx

namespace Psx

/-! ## Step invariants: R0 hard-wiring and PC discipline -/

/-- The output register bank has register 0 zeroed. -/
def Out0 (c : Cpu) : Prop := c.out_regs 0 = 0

/-- The PC pair is coherent: either a branch was taken this cycle (the
next instruction is a delay slot) or `next_pc` is the sequential
successor of `pc`. -/
def PcOk (c : Cpu) : Prop := c.branch = true ∨ c.next_pc = wadd c.pc 4

/-- Both invariants carried across one opcode handler. -/
def Keeps (c c' : Cpu) : Prop := (Out0 c → Out0 c') ∧ (PcOk c → PcOk c')

theorem keeps_exception (c : Cpu) (e : Exception) : Keeps c (c.exception e) :=
  ⟨fun h => h, fun _ => Or.inr rfl⟩

theorem keeps_op_sll (c : Cpu) (i : Instruction) : Keeps c (c.op_sll i) :=
  ⟨fun _ => rfl, fun h => h⟩

theorem keeps_op_srl (c : Cpu) (i : Instruction) : Keeps c (c.op_srl i) :=
  ⟨fun _ => rfl, fun h => h⟩

theorem keeps_op_sra (c : Cpu) (i : Instruction) : Keeps c (c.op_sra i) :=
  ⟨fun _ => rfl, fun h => h⟩

theorem keeps_op_sllv (c : Cpu) (i : Instruction) : Keeps c (c.op_sllv i) :=
  ⟨fun _ => rfl, fun h => h⟩

theorem keeps_op_srlv (c : Cpu) (i : Instruction) : Keeps c (c.op_srlv i) :=
  ⟨fun _ => rfl, fun h => h⟩

theorem keeps_op_srav (c : Cpu) (i : Instruction) : Keeps c (c.op_srav i) :=
  ⟨fun _ => rfl, fun h => h⟩

theorem keeps_op_jr (c : Cpu) (i : Instruction) : Keeps c (c.op_jr i) :=
  ⟨fun h => h, fun _ => Or.inl rfl⟩

theorem keeps_op_jalr (c : Cpu) (i : Instruction) : Keeps c (c.op_jalr i) :=
  ⟨fun _ => rfl, fun _ => Or.inl rfl⟩

theorem keeps_op_syscall (c : Cpu) (i : Instruction) : Keeps c (c.op_syscall i) :=
  keeps_exception c .SysCall

theorem keeps_op_break (c : Cpu) (i : Instruction) : Keeps c (c.op_break i) :=
  keeps_exception c .Break

theorem keeps_op_mfhi (c : Cpu) (i : Instruction) : Keeps c (c.op_mfhi i) :=
  ⟨fun _ => rfl, fun h => h⟩

theorem keeps_op_mthi (c : Cpu) (i : Instruction) : Keeps c (c.op_mthi i) :=
  ⟨fun h => h, fun h => h⟩

theorem keeps_op_mflo (c : Cpu) (i : Instruction) : Keeps c (c.op_mflo i) :=
  ⟨fun _ => rfl, fun h => h⟩

theorem keeps_op_mtlo (c : Cpu) (i : Instruction) : Keeps c (c.op_mtlo i) :=
  ⟨fun h => h, fun h => h⟩

theorem keeps_op_mult (c : Cpu) (i : Instruction) : Keeps c (c.op_mult i) :=
  ⟨fun h => h, fun h => h⟩

theorem keeps_op_multu (c : Cpu) (i : Instruction) : Keeps c (c.op_multu i) :=
  ⟨fun h => h, fun h => h⟩

theorem keeps_op_div (c : Cpu) (i : Instruction) : Keeps c (c.op_div i) := by
  simp only [Cpu.op_div]
  split
  · exact ⟨fun h => h, fun h => h⟩
  · split
    · exact ⟨fun h => h, fun h => h⟩
    · exact ⟨fun h => h, fun h => h⟩

theorem keeps_op_divu (c : Cpu) (i : Instruction) : Keeps c (c.op_divu i) := by
  simp only [Cpu.op_divu]
  split
  · exact ⟨fun h => h, fun h => h⟩
  · exact ⟨fun h => h, fun h => h⟩

theorem keeps_op_add (c : Cpu) (i : Instruction) : Keeps c (c.op_add i) := by
  simp only [Cpu.op_add]
  split
  · exact ⟨fun _ => rfl, fun h => h⟩
  · exact keeps_exception _ _

theorem keeps_op_addu (c : Cpu) (i : Instruction) : Keeps c (c.op_addu i) :=
  ⟨fun _ => rfl, fun h => h⟩

theorem keeps_op_sub (c : Cpu) (i : Instruction) : Keeps c (c.op_sub i) := by
  simp only [Cpu.op_sub]
  split
  · exact ⟨fun _ => rfl, fun h => h⟩
  · exact keeps_exception _ _

theorem keeps_op_subu (c : Cpu) (i : Instruction) : Keeps c (c.op_subu i) :=
  ⟨fun _ => rfl, fun h => h⟩

theorem keeps_op_and (c : Cpu) (i : Instruction) : Keeps c (c.op_and i) :=
  ⟨fun _ => rfl, fun h => h⟩

theorem keeps_op_or (c : Cpu) (i : Instruction) : Keeps c (c.op_or i) :=
  ⟨fun _ => rfl, fun h => h⟩

theorem keeps_op_xor (c : Cpu) (i : Instruction) : Keeps c (c.op_xor i) :=
  ⟨fun _ => rfl, fun h => h⟩

theorem keeps_op_nor (c : Cpu) (i : Instruction) : Keeps c (c.op_nor i) :=
  ⟨fun _ => rfl, fun h => h⟩

theorem keeps_op_slt (c : Cpu) (i : Instruction) : Keeps c (c.op_slt i) :=
  ⟨fun _ => rfl, fun h => h⟩

theorem keeps_op_sltu (c : Cpu) (i : Instruction) : Keeps c (c.op_sltu i) :=
  ⟨fun _ => rfl, fun h => h⟩

theorem keeps_op_bxx (c : Cpu) (i : Instruction) : Keeps c (c.op_bxx i) := by
  simp only [Cpu.op_bxx]
  split <;> split <;> (try split) <;>
    first
      | exact ⟨fun _ => rfl, fun _ => Or.inl rfl⟩
      | exact ⟨fun h => h, fun _ => Or.inl rfl⟩
      | exact ⟨fun h => h, fun h => h⟩

theorem keeps_op_j (c : Cpu) (i : Instruction) : Keeps c (c.op_j i) :=
  ⟨fun h => h, fun _ => Or.inl rfl⟩

theorem keeps_op_jal (c : Cpu) (i : Instruction) : Keeps c (c.op_jal i) :=
  ⟨fun _ => rfl, fun _ => Or.inl rfl⟩

theorem keeps_op_beq (c : Cpu) (i : Instruction) : Keeps c (c.op_beq i) := by
  simp only [Cpu.op_beq]
  split
  · exact ⟨fun h => h, fun _ => Or.inl rfl⟩
  · exact ⟨fun h => h, fun h => h⟩

theorem keeps_op_bne (c : Cpu) (i : Instruction) : Keeps c (c.op_bne i) := by
  simp only [Cpu.op_bne]
  split
  · exact ⟨fun h => h, fun _ => Or.inl rfl⟩
  · exact ⟨fun h => h, fun h => h⟩

theorem keeps_op_blez (c : Cpu) (i : Instruction) : Keeps c (c.op_blez i) := by
  simp only [Cpu.op_blez]
  split
  · exact ⟨fun h => h, fun _ => Or.inl rfl⟩
  · exact ⟨fun h => h, fun h => h⟩

theorem keeps_op_bgtz (c : Cpu) (i : Instruction) : Keeps c (c.op_bgtz i) := by
  simp only [Cpu.op_bgtz]
  split
  · exact ⟨fun h => h, fun _ => Or.inl rfl⟩
  · exact ⟨fun h => h, fun h => h⟩

theorem keeps_op_addi (c : Cpu) (i : Instruction) : Keeps c (c.op_addi i) := by
  simp only [Cpu.op_addi]
  split
  · exact ⟨fun _ => rfl, fun h => h⟩
  · exact keeps_exception _ _

theorem keeps_op_addiu (c : Cpu) (i : Instruction) : Keeps c (c.op_addiu i) :=
  ⟨fun _ => rfl, fun h => h⟩

theorem keeps_op_slti (c : Cpu) (i : Instruction) : Keeps c (c.op_slti i) :=
  ⟨fun _ => rfl, fun h => h⟩

theorem keeps_op_sltiu (c : Cpu) (i : Instruction) : Keeps c (c.op_sltiu i) :=
  ⟨fun _ => rfl, fun h => h⟩

theorem keeps_op_andi (c : Cpu) (i : Instruction) : Keeps c (c.op_andi i) :=
  ⟨fun _ => rfl, fun h => h⟩

theorem keeps_op_ori (c : Cpu) (i : Instruction) : Keeps c (c.op_ori i) :=
  ⟨fun _ => rfl, fun h => h⟩

theorem keeps_op_xori (c : Cpu) (i : Instruction) : Keeps c (c.op_xori i) :=
  ⟨fun _ => rfl, fun h => h⟩

theorem keeps_op_lui (c : Cpu) (i : Instruction) : Keeps c (c.op_lui i) :=
  ⟨fun _ => rfl, fun h => h⟩

theorem keeps_op_cop1 (c : Cpu) (i : Instruction) : Keeps c (c.op_cop1 i) :=
  keeps_exception c .CoprocessorError

theorem keeps_op_cop3 (c : Cpu) (i : Instruction) : Keeps c (c.op_cop3 i) :=
  keeps_exception c .CoprocessorError

theorem keeps_op_lb (c : Cpu) (i : Instruction) : Keeps c (c.op_lb i) :=
  ⟨fun h => h, fun h => h⟩

theorem keeps_op_lh (c : Cpu) (i : Instruction) : Keeps c (c.op_lh i) :=
  ⟨fun h => h, fun h => h⟩

theorem keeps_op_lw (c : Cpu) (i : Instruction) : Keeps c (c.op_lw i) := by
  simp only [Cpu.op_lw]
  split
  · exact ⟨fun h => h, fun h => h⟩
  · exact keeps_exception _ _

theorem keeps_op_lbu (c : Cpu) (i : Instruction) : Keeps c (c.op_lbu i) :=
  ⟨fun h => h, fun h => h⟩

theorem keeps_op_lhu (c : Cpu) (i : Instruction) : Keeps c (c.op_lhu i) := by
  simp only [Cpu.op_lhu]
  split
  · exact ⟨fun h => h, fun h => h⟩
  · exact keeps_exception _ _

theorem keeps_op_lwc0 (c : Cpu) (i : Instruction) : Keeps c (c.op_lwc0 i) :=
  keeps_exception c .CoprocessorError

theorem keeps_op_lwc1 (c : Cpu) (i : Instruction) : Keeps c (c.op_lwc1 i) :=
  keeps_exception c .CoprocessorError

theorem keeps_op_lwc3 (c : Cpu) (i : Instruction) : Keeps c (c.op_lwc3 i) :=
  keeps_exception c .CoprocessorError

theorem keeps_op_swc0 (c : Cpu) (i : Instruction) : Keeps c (c.op_swc0 i) :=
  keeps_exception c .CoprocessorError

theorem keeps_op_swc1 (c : Cpu) (i : Instruction) : Keeps c (c.op_swc1 i) :=
  keeps_exception c .CoprocessorError

theorem keeps_op_swc3 (c : Cpu) (i : Instruction) : Keeps c (c.op_swc3 i) :=
  keeps_exception c .CoprocessorError

theorem keeps_op_illegal (c : Cpu) (i : Instruction) : Keeps c (c.op_illegal i) :=
  keeps_exception c .IllegalInstruction

end Psx

namespace Psx

theorem keeps_store (c : Cpu) (w : AccessWidth) (a v : Nat) (c' : Cpu)
    (h : c.store w a v = some c') : Keeps c c' := by
  simp only [Cpu.store, Cpu.cache_maintenance] at h
  split at h
  · split at h
    · exact absurd h (by simp)
    · split at h
      · exact absurd h (by simp)
      · cases h
        exact ⟨fun h0 => h0, fun h0 => h0⟩
  · cases h
    exact ⟨fun h0 => h0, fun h0 => h0⟩

theorem keeps_op_mfc0 (c : Cpu) (i : Instruction) (c' : Cpu)
    (h : c.op_mfc0 i = some c') : Keeps c c' := by
  simp only [Cpu.op_mfc0] at h
  split at h <;> first
    | (cases h; exact ⟨fun h0 => h0, fun h0 => h0⟩)
    | exact absurd h (by simp)

theorem keeps_op_mtc0 (c : Cpu) (i : Instruction) (c' : Cpu)
    (h : c.op_mtc0 i = some c') : Keeps c c' := by
  simp only [Cpu.op_mtc0] at h
  split at h <;> (try split at h) <;> first
    | (cases h; exact ⟨fun h0 => h0, fun h0 => h0⟩)
    | exact absurd h (by simp)

theorem keeps_op_rfe (c : Cpu) (i : Instruction) (c' : Cpu)
    (h : c.op_rfe i = some c') : Keeps c c' := by
  simp only [Cpu.op_rfe] at h
  split at h
  · exact absurd h (by simp)
  · cases h
    exact ⟨fun h0 => h0, fun h0 => h0⟩

theorem keeps_op_cop0 (c : Cpu) (i : Instruction) (c' : Cpu)
    (h : c.op_cop0 i = some c') : Keeps c c' := by
  simp only [Cpu.op_cop0] at h
  split at h
  · exact keeps_op_mfc0 _ _ _ h
  · exact keeps_op_mtc0 _ _ _ h
  · exact keeps_op_rfe _ _ _ h
  · exact absurd h (by simp)

theorem keeps_op_lwl (c : Cpu) (i : Instruction) (c' : Cpu)
    (h : c.op_lwl i = some c') : Keeps c c' := by
  simp only [Cpu.op_lwl] at h
  split at h <;> first
    | (cases h; exact ⟨fun h0 => h0, fun h0 => h0⟩)
    | exact absurd h (by simp)

theorem keeps_op_lwr (c : Cpu) (i : Instruction) (c' : Cpu)
    (h : c.op_lwr i = some c') : Keeps c c' := by
  simp only [Cpu.op_lwr] at h
  split at h <;> first
    | (cases h; exact ⟨fun h0 => h0, fun h0 => h0⟩)
    | exact absurd h (by simp)

theorem keeps_op_sb (c : Cpu) (i : Instruction) (c' : Cpu)
    (h : c.op_sb i = some c') : Keeps c c' := by
  simp only [Cpu.op_sb] at h
  exact keeps_store _ _ _ _ _ h

theorem keeps_op_sh (c : Cpu) (i : Instruction) (c' : Cpu)
    (h : c.op_sh i = some c') : Keeps c c' := by
  simp only [Cpu.op_sh] at h
  split at h
  · exact keeps_store _ _ _ _ _ h
  · cases h
    exact keeps_exception _ _

theorem keeps_op_sw (c : Cpu) (i : Instruction) (c' : Cpu)
    (h : c.op_sw i = some c') : Keeps c c' := by
  simp only [Cpu.op_sw] at h
  split at h
  · exact keeps_store _ _ _ _ _ h
  · cases h
    exact keeps_exception _ _

theorem keeps_op_swl (c : Cpu) (i : Instruction) (c' : Cpu)
    (h : c.op_swl i = some c') : Keeps c c' := by
  simp only [Cpu.op_swl] at h
  split at h <;> first
    | exact keeps_store _ _ _ _ _ h
    | exact absurd h (by simp)

theorem keeps_op_swr (c : Cpu) (i : Instruction) (c' : Cpu)
    (h : c.op_swr i = some c') : Keeps c c' := by
  simp only [Cpu.op_swr] at h
  split at h <;> first
    | exact keeps_store _ _ _ _ _ h
    | exact absurd h (by simp)

end Psx

namespace Psx

set_option maxRecDepth 8192 in
theorem decode_keeps (c : Cpu) (i : Instruction) (c' : Cpu)
    (h : c.decode_and_execute i = some c') : Keeps c c' := by
  simp only [Cpu.decode_and_execute] at h
  suffices hs : Keeps { c with tkNow := c.tkNow + 1 } c' by exact ⟨hs.1, hs.2⟩
  split at h
  · split at h
    · cases h
      exact keeps_op_sll _ _
    · cases h
      exact keeps_op_srl _ _
    · cases h
      exact keeps_op_sra _ _
    · cases h
      exact keeps_op_sllv _ _
    · cases h
      exact keeps_op_srlv _ _
    · cases h
      exact keeps_op_srav _ _
    · cases h
      exact keeps_op_jr _ _
    · cases h
      exact keeps_op_jalr _ _
    · cases h
      exact keeps_op_syscall _ _
    · cases h
      exact keeps_op_break _ _
    · cases h
      exact keeps_op_mfhi _ _
    · cases h
      exact keeps_op_mthi _ _
    · cases h
      exact keeps_op_mflo _ _
    · cases h
      exact keeps_op_mtlo _ _
    · cases h
      exact keeps_op_mult _ _
    · cases h
      exact keeps_op_multu _ _
    · cases h
      exact keeps_op_div _ _
    · cases h
      exact keeps_op_divu _ _
    · cases h
      exact keeps_op_add _ _
    · cases h
      exact keeps_op_addu _ _
    · cases h
      exact keeps_op_sub _ _
    · cases h
      exact keeps_op_subu _ _
    · cases h
      exact keeps_op_and _ _
    · cases h
      exact keeps_op_or _ _
    · cases h
      exact keeps_op_xor _ _
    · cases h
      exact keeps_op_nor _ _
    · cases h
      exact keeps_op_slt _ _
    · cases h
      exact keeps_op_sltu _ _
    · cases h
      exact keeps_op_illegal _ _
  · cases h
    exact keeps_op_bxx _ _
  · cases h
    exact keeps_op_j _ _
  · cases h
    exact keeps_op_jal _ _
  · cases h
    exact keeps_op_beq _ _
  · cases h
    exact keeps_op_bne _ _
  · cases h
    exact keeps_op_blez _ _
  · cases h
    exact keeps_op_bgtz _ _
  · cases h
    exact keeps_op_addi _ _
  · cases h
    exact keeps_op_addiu _ _
  · cases h
    exact keeps_op_slti _ _
  · cases h
    exact keeps_op_sltiu _ _
  · cases h
    exact keeps_op_andi _ _
  · cases h
    exact keeps_op_ori _ _
  · cases h
    exact keeps_op_xori _ _
  · cases h
    exact keeps_op_lui _ _
  · exact keeps_op_cop0 _ _ _ h
  · cases h
    exact keeps_op_cop1 _ _
  · exact absurd h (by simp [Cpu.op_cop2])
  · cases h
    exact keeps_op_cop3 _ _
  · cases h
    exact keeps_op_lb _ _
  · cases h
    exact keeps_op_lh _ _
  · exact keeps_op_lwl _ _ _ h
  · cases h
    exact keeps_op_lw _ _
  · cases h
    exact keeps_op_lbu _ _
  · cases h
    exact keeps_op_lhu _ _
  · exact keeps_op_lwr _ _ _ h
  · exact keeps_op_sb _ _ _ h
  · exact keeps_op_sh _ _ _ h
  · exact keeps_op_swl _ _ _ h
  · exact keeps_op_sw _ _ _ h
  · exact keeps_op_swr _ _ _ h
  · cases h
    exact keeps_op_lwc0 _ _
  · cases h
    exact keeps_op_lwc1 _ _
  · exact absurd h (by simp [Cpu.op_lwc2])
  · cases h
    exact keeps_op_lwc3 _ _
  · cases h
    exact keeps_op_swc0 _ _
  · cases h
    exact keeps_op_swc1 _ _
  · exact absurd h (by simp [Cpu.op_swc2])
  · cases h
    exact keeps_op_swc3 _ _
  · cases h
    exact keeps_op_illegal _ _
end Psx

namespace Psx

/-! ## C6: register 0 stays hard-wired to zero across every step -/

/-- C6: from any state satisfying the R0 invariant, every committed
instruction — including writes naming R0 and pending loads targeting
R0 — leaves `regs[0] == 0` and `out_regs[0] == 0`. -/
theorem r0_hardwired_step (c c' : Cpu)
    (h1 : c.regs 0 = 0) (h2 : c.out_regs 0 = 0)
    (h : c.run_next_instruction = some c') :
    c'.regs 0 = 0 ∧ c'.out_regs 0 = 0 := by
  simp only [Cpu.run_next_instruction] at h
  split at h
  · cases h
    exact ⟨h1, h2⟩
  · split at h
    · exact absurd h (by simp)
    · rename_i cX hX
      cases h
      have hk := decode_keeps _ _ _ hX
      have h0 : Out0 cX := hk.1 rfl
      exact ⟨h0, h0⟩

/-- Witness for C6: a full step of the reset-like state `cpuW`
(instruction word 0, i.e. `sll r0, r0, 0`). -/
theorem r0_hardwired_step_witness :
    cpuW.regs 0 = 0 ∧ cpuW.out_regs 0 = 0 ∧
    ((cpuW.run_next_instruction).getD cpuW).regs 0 = 0 ∧
    ((cpuW.run_next_instruction).getD cpuW).out_regs 0 = 0 :=
  ⟨rfl, rfl,
   (r0_hardwired_step cpuW _ rfl rfl rfl).1,
   (r0_hardwired_step cpuW _ rfl rfl rfl).2⟩

/-! ## C7: PC-pair discipline after a committed step -/

/-- C7 (amended): after every committed step, `next_pc == pc + 4` *or*
the step marked the next instruction as a delay slot (inclusive
disjunction: a taken branch whose target equals `pc + 4`, e.g. offset
+1, makes both true at once; exception steps satisfy the first
disjunct). -/
theorem step_pc_discipline (c c' : Cpu) (h : c.run_next_instruction = some c') :
    c'.branch = true ∨ c'.next_pc = wadd c'.pc 4 := by
  simp only [Cpu.run_next_instruction] at h
  split at h
  · cases h
    exact Or.inr rfl
  · split at h
    · exact absurd h (by simp)
    · rename_i cX hX
      cases h
      have hk := decode_keeps _ _ _ hX
      exact hk.2 (Or.inr rfl)

/-- Witness for C7 at the concrete state `cpuW`. -/
theorem step_pc_discipline_witness :
    ((cpuW.run_next_instruction).getD cpuW).branch = true ∨
    ((cpuW.run_next_instruction).getD cpuW).next_pc =
      wadd ((cpuW.run_next_instruction).getD cpuW).pc 4 :=
  step_pc_discipline cpuW _ rfl

/-- Memory holding the word 0x10000001 (`beq r0, r0, +1`) at every
word-aligned address. -/
def memBeq : Nat → Nat := fun a =>
  if a % 4 = 0 then 1 else if a % 4 = 3 then 0x10 else 0

/-- State about to execute `beq r0, r0, +1` from the uncached KSEG1
window. -/
def cpuBeq : Cpu :=
  { cpuOf (fun _ => 0) memBeq with pc := 0xa0000000, next_pc := 0xa0000004 }

/-- C7 counterexample: a taken `beq r0, r0, +1` (no exception) commits
with the delay-slot mark set *and* `next_pc = pc + 4` — both sides of
the claimed exclusive-or hold, so "exactly one" is false. -/
theorem step_pc_xor_counterexample :
    (cpuBeq.run_next_instruction).map (fun c => (c.branch, c.pc, c.next_pc)) =
      some (true, 0xa0000004, 0xa0000008) ∧
    ¬ Xor' ((0xa0000008 : Nat) = wadd 0xa0000004 4) (true = true) :=
  ⟨rfl, fun hx => hx.elim (fun hp => hp.2 rfl) (fun hp => hp.2 rfl)⟩

end Psx
